import Mathlib

/-!
Verification of the b-transpiler folder-tree descriptor and traversal engine
(src/index.ts). The definitions below are a shallow embedding of the
TypeScript source: the Folder descriptor interface, the BTranspiler engine
state, path stamping (addParentPath), validation (validateFolder, checkFile),
registration (addFolder), and the traversal (transformFolder, transform).
The external collaborators are parameters: the filesystem is a record of
stat, readdir and readFile functions rooted at the source directory, and the
Bun transpiler is an abstract function convert from text to text. Exceptions
thrown by the code are modelled with Except, and the engine mutation of
addFolder is modelled as state passing returning the new engine together
with the thrown message, if any.
-/

namespace BTrans

/-- Folder descriptor, mirroring the Folder interface of the source: an
optional parent path, a name, an exclusion list and nested sub folders.
In the source the exclude and folders fields are optional arrays; at every
use site an absent array behaves exactly like an empty one (find on it is
undefined, forEach and map are no-ops), so they are embedded as plain lists.
The path field is kept optional because an absent path behaves differently
from an empty one in the template strings of the source. -/
inductive Folder : Type where
  | mk (path : Option String) (name : String) (exclude : List String) (folders : List Folder)

/-- Projection of the optional parent path. -/
def Folder.path : Folder → Option String
  | .mk p _ _ _ => p

/-- Projection of the folder name. -/
def Folder.name : Folder → String
  | .mk _ n _ _ => n

/-- Projection of the excluded file names. -/
def Folder.exclude : Folder → List String
  | .mk _ _ e _ => e

/-- Projection of the nested sub folders. -/
def Folder.folders : Folder → List Folder
  | .mk _ _ _ s => s

/-- Result of lstatSync as far as the source inspects it. -/
inductive FKind : Type where
  | dir
  | file
deriving DecidableEq

/-- The filesystem capability, rooted at the source directory of the
repository (import.meta.dir in the source): stat gives the kind of an
existing entry, entries lists a directory, text reads a file. -/
structure FS where
  stat : String → Option FKind
  entries : String → List String
  text : String → String

/-- Engine state of the BTranspiler class: the configured output directory
(none until setOutdir is called, mirroring the definite-assignment field of
the source) and the registered forest of top level folders. -/
structure Engine where
  outdir : Option String
  folders : List Folder

/-- Engine state right after the constructor runs. -/
def emptyEngine : Engine := ⟨none, []⟩

/-- setOutdir of the source: pure assignment of the output directory. -/
def setOutdir (e : Engine) (o : String) : Engine := { e with outdir := some o }

/-- Effective path of a folder, as computed twice in the source by
  folder.path(question)(dot)length !== 0 (question) path/name : name.
When the path field is absent the template string of the source renders the
text undefined followed by a slash, which is reproduced literally here;
when it is the empty string, the condition is false and the name alone is
used; otherwise path, a slash, and the name. -/
def basePath : Folder → String
  | .mk none n _ _ => "undefined/" ++ n
  | .mk (some p) n _ _ => if p.length != 0 then p ++ "/" ++ n else n

mutual

/-- addParentPath of the source: stamps the given parent path into the
folder and recursively stamps each sub folder with the stamped folder's own
effective path (parent path, slash, name). Pure structural rewrite. -/
def addParentPath (path : String) : Folder → Folder
  | .mk _ n ex subs => .mk (some path) n ex (addParentPathAll (path ++ "/" ++ n) subs)

/-- The map of addParentPath over a list of sub folders, as done by
sub_folders.map in addFolder and folder.folders.map in addParentPath. -/
def addParentPathAll (path : String) : List Folder → List Folder
  | [] => []
  | f :: r => addParentPath path f :: addParentPathAll path r

end

/-- checkFile of the source, in the configuration used during validation
(base_path equal to import.meta.dir, so the early-return branch for a
different base path is never taken): stats the path, throws when the entry
is absent, throws when a directory is found where a file was requested with
error reporting on, throws when a file is found where a directory was
requested with error reporting on, returns false in the silent versions of
those two cases and otherwise returns the stats (embedded as true). -/
def checkFile (fs : FS) (file : String) (dir : Bool) (error : Bool) : Except String Bool :=
  match fs.stat file with
  | none => .error ("Cannot find " ++ (if dir then "folder" else "file") ++ " " ++ file)
  | some k =>
    if k == .dir && !dir && error then .error ("Cannot find folder " ++ file)
    else if k == .dir && !dir then .ok false
    else if k == .file && dir && error then .error ("Cannot find path " ++ file)
    else if k == .file && dir then .ok false
    else .ok true

/-- The forEach of checkFile over the excluded file names of a folder in
validateFolder: each name is checked at base_path slash name, and the first
thrown error propagates. -/
def checkExcludes (fs : FS) (base : String) : List String → Except String Unit
  | [] => .ok ()
  | f :: r =>
    match checkFile fs (base ++ "/" ++ f) false true with
    | .error e => .error e
    | .ok _ => checkExcludes fs base r

mutual

/-- validateFolder of the source: returns false when a folder of the same
name is already registered in the top level forest (the duplicate check
always compares against the engine's top level folders, even in recursive
calls on nested sub folders); otherwise checks that the effective path
exists as a directory, checks every excluded file name, recursively
validates every sub folder while discarding each recursive boolean result
(the source uses forEach, so only thrown errors propagate), and finally
returns true. -/
def validateFolder (fs : FS) (top : List Folder) : Folder → Except String Bool
  | .mk p n ex subs =>
    if top.any (fun x => x.name == n) then .ok false
    else
      match checkFile fs (basePath (.mk p n ex subs)) true true with
      | .error e => .error e
      | .ok _ =>
        match checkExcludes fs (basePath (.mk p n ex subs)) ex with
        | .error e => .error e
        | .ok _ =>
          match validateChildren fs top subs with
          | .error e => .error e
          | .ok _ => .ok true

/-- The forEach of validateFolder over the sub folders: recursive boolean
results are discarded, thrown errors propagate. -/
def validateChildren (fs : FS) (top : List Folder) : List Folder → Except String Unit
  | [] => .ok ()
  | f :: r =>
    match validateFolder fs top f with
    | .error e => .error e
    | .ok _ => validateChildren fs top r

end

/-- addFolder of the source: stamps the given sub folders with the new
folder's name as parent path, validates the assembled node (path set to the
empty string) against the current forest, and appends the node to the
forest only when validation returned true. The returned option is the
message of the exception thrown by validation, if any; the engine component
is the state of the instance when the call finishes or throws. -/
def addFolder (fs : FS) (e : Engine) (name : String) (ex : List String)
    (subs : List Folder) : Engine × Option String :=
  match validateFolder fs e.folders (.mk (some "") name ex (addParentPathAll name subs)) with
  | .error m => (e, some m)
  | .ok false => (e, none)
  | .ok true =>
    ({ e with folders := e.folders ++ [.mk (some "") name ex (addParentPathAll name subs)] }, none)

/-- First-occurrence string replacement, the semantics of the JavaScript
String.replace called with two plain strings as the source does in
file.replace applied to ts and js: only the first occurrence of the pattern
is replaced, scanning left to right. -/
def replaceFirstChars (pat rep : List Char) : List Char → List Char
  | [] => if pat.isPrefixOf ([] : List Char) then rep else []
  | c :: cs =>
    if pat.isPrefixOf (c :: cs) then rep ++ (c :: cs).drop pat.length
    else c :: replaceFirstChars pat rep cs

/-- String wrapper of replaceFirstChars. -/
def jsReplace (s pat rep : String) : String := ⟨replaceFirstChars pat.data rep.data s.data⟩

/-- Suffix test on strings, the semantics of the JavaScript endsWith used
by the filter of the source. -/
def endsWithStr (s suf : String) : Bool := suf.data.isSuffixOf s.data

/-- The file filter of transformFolder, line 85 of the source:
exclude.find of (x not equal to f), and then f ends with .ts or f ends with
.js. The find returns the first excluded name different from f; the filter
keeps the file only when such a name exists, when that name is not the
empty string (an empty found string is falsy in JavaScript), and when the
suffix test passes. -/
def keepFile (exclude : List String) (f : String) : Bool :=
  match exclude.find? (fun x => x != f) with
  | none => false
  | some x => x != "" && (endsWithStr f ".ts" || endsWithStr f ".js")

/-- transformFile of the source: reads the file at the given source-rooted
path and applies the transpiler to its text. The transpiler is the abstract
convert parameter; note that it is applied to every kept file, whatever its
suffix. -/
def transformFile (fs : FS) (convert : String → String) (path : String) : String :=
  convert (fs.text path)

mutual

/-- The writes performed by transformFolder of the source for one folder
and its subtree: for each directory entry kept by the filter, one write of
the converted text at cwd/outdir/effective path/name with the first
occurrence of ts replaced by js, followed by the writes of the sub folders.
This captures which files are written with which path and content; the
write set is independent of the interleaving of the spawned sub folder
promises, which is modelled separately by transformProc below. -/
def transformFolder (fs : FS) (convert : String → String) (cwd outdir : String) :
    Folder → List (String × String)
  | .mk p n ex subs =>
    ((fs.entries (basePath (.mk p n ex subs))).filter (fun f => keepFile ex f)).map
      (fun fl =>
        (cwd ++ "/" ++ outdir ++ "/" ++ basePath (.mk p n ex subs) ++ "/" ++ jsReplace fl "ts" "js",
         transformFile fs convert (basePath (.mk p n ex subs) ++ "/" ++ fl)))
    ++ transformFolders fs convert cwd outdir subs

/-- The concatenated writes of a list of folders, in list order. -/
def transformFolders (fs : FS) (convert : String → String) (cwd outdir : String) :
    List Folder → List (String × String)
  | [] => []
  | f :: r => transformFolder fs convert cwd outdir f ++ transformFolders fs convert cwd outdir r

end

/-- transform of the source, reduced to the files it writes: after ensuring
and wiping the output root (so the output tree consists exactly of these
writes), it traverses every registered top level folder in registration
order. An unset outdir field renders as the text undefined in the template
strings of the source, mirrored by getD. -/
def transform (fs : FS) (convert : String → String) (cwd : String) (e : Engine) :
    List (String × String) :=
  transformFolders fs convert cwd (e.outdir.getD "undefined") e.folders

/-- Child-index navigation into a folder descriptor: follow the given list
of child positions from the node. -/
def descend : Folder → List Nat → Option Folder
  | f, [] => some f
  | f, i :: r =>
    match f.folders[i]? with
    | none => none
    | some c => descend c r

/-- The names of the nodes visited while following a list of child
positions, starting with the node itself. -/
def namesOnPath : Folder → List Nat → List String
  | f, [] => [f.name]
  | f, i :: r =>
    match f.folders[i]? with
    | none => [f.name]
    | some c => f.name :: namesOnPath c r

/-- Join of a name sequence with slashes, the composition rule of the spec. -/
def joinPath : List String → String
  | [] => ""
  | [x] => x
  | x :: r => x ++ "/" ++ joinPath r

/-- Cooperative process model of the asynchronous traversal, used to settle
the temporal claim: emit is one awaited asynchronous file write (identified
by its output path), seq2 runs its left component to completion before its
right component starts (the await points of the source), and spawnAll
creates promises that are never awaited (the forEach over sub folders in
transformFolder), handing them to the scheduler as independently running
tasks. -/
inductive Proc : Type where
  | skip
  | emit (e : String)
  | seq2 (p q : Proc)
  | spawnAll (ps : List Proc)

/-- One atomic step of a single task: skip is finished; emit performs its
write; seq2 steps its left component, or its right one once the left is
finished; spawnAll hands its processes to the pool and completes. Returns
the optional event, the continuation, and the newly spawned tasks. -/
def runOne : Proc → Option (Option String × Proc × List Proc)
  | .skip => none
  | .emit e => some (some e, .skip, [])
  | .seq2 p q =>
    match runOne p with
    | none => runOne q
    | some (ev, p2, sp) => some (ev, .seq2 p2 q, sp)
  | .spawnAll ps => some (none, .skip, ps)

/-- Scheduler over a pool of concurrently pending tasks: each choice picks
the index of the task that makes the next step (in the real runtime this is
decided by the order in which the pending writes complete). Returns the
trace of write events in the order they happen. -/
def runPool : List Nat → List Proc → List String
  | [], _ => []
  | i :: rest, pool =>
    match pool[i]? with
    | none => runPool rest pool
    | some p =>
      match runOne p with
      | none => runPool rest (pool.eraseIdx i)
      | some (ev, p2, sp) =>
        (match ev with | none => [] | some e => [e]) ++ runPool rest (pool.set i p2 ++ sp)

/-- Sequence of awaited writes, one seq2 per file of the loop in
transformFolder. -/
def seqEmits : List String → Proc
  | [] => .skip
  | e :: r => .seq2 (.emit e) (seqEmits r)

/-- The output paths written for the kept files of one folder, in listing
order. -/
def fileEvents (fs : FS) (cwd outdir base : String) (ex : List String) : List String :=
  ((fs.entries base).filter (fun f => keepFile ex f)).map
    (fun fl => cwd ++ "/" ++ outdir ++ "/" ++ base ++ "/" ++ jsReplace fl "ts" "js")

mutual

/-- Process denotation of transformFolder: the writes of the folder's own
kept files are awaited one after the other (the for loop with await of the
source), after which the sub folder traversals are spawned by forEach
without being awaited. -/
def transformProc (fs : FS) (cwd outdir : String) : Folder → Proc
  | .mk p n ex subs =>
    .seq2 (seqEmits (fileEvents fs cwd outdir (basePath (.mk p n ex subs)) ex))
      (.spawnAll (transformProcs fs cwd outdir subs))

/-- Process denotations of a list of sub folders. -/
def transformProcs (fs : FS) (cwd outdir : String) : List Folder → List Proc
  | [] => []
  | f :: r => transformProc fs cwd outdir f :: transformProcs fs cwd outdir r

end

/-- Process denotation of transform: each top level folder's transformFolder
promise is awaited before the next one starts (the for loop with await in
transform), but the await only covers the folder's own writes and the
spawning of its sub folder tasks. -/
def transformTop (fs : FS) (cwd outdir : String) : List Folder → Proc
  | [] => .skip
  | f :: r => .seq2 (transformProc fs cwd outdir f) (transformTop fs cwd outdir r)

/-- Source tree for the end to end example of the spec: a folder api
holding index.ts and util.ts, with the given file contents. -/
def apiFS (tIndex tUtil : String) : FS where
  stat := fun p =>
    if p == "api" then some .dir
    else if p == "api/index.ts" || p == "api/util.ts" then some .file
    else none
  entries := fun p => if p == "api" then ["index.ts", "util.ts"] else []
  text := fun p => if p == "api/index.ts" then tIndex else if p == "api/util.ts" then tUtil else ""

/-- Source tree with a folder api holding a single file index.ts. -/
def soloFS : FS where
  stat := fun p => if p == "api" then some .dir else if p == "api/index.ts" then some .file else none
  entries := fun p => if p == "api" then ["index.ts"] else []
  text := fun _ => "SRC"

/-- Source tree with a folder pkg holding a single file tests.ts. -/
def testsFS : FS where
  stat := fun p => if p == "pkg" then some .dir else if p == "pkg/tests.ts" then some .file else none
  entries := fun p => if p == "pkg" then ["tests.ts"] else []
  text := fun p => if p == "pkg/tests.ts" then "CODE" else ""

/-- Source tree with a folder lib holding an already-compatible file
util.js next to an excludable file x.ts. -/
def libFS : FS where
  stat := fun p =>
    if p == "lib" then some .dir
    else if p == "lib/x.ts" || p == "lib/util.js" then some .file
    else none
  entries := fun p => if p == "lib" then ["util.js"] else []
  text := fun p => if p == "lib/util.js" then "ORIGINAL" else ""

/-- Filesystem in which nothing exists, for the validation failure witness. -/
def ghostFS : FS where
  stat := fun _ => none
  entries := fun _ => []
  text := fun _ => ""

/-- Filesystem in which only the directory web exists; in particular the
excluded file named under the nested child does not exist anywhere. -/
def webFS : FS where
  stat := fun p => if p == "web" then some .dir else none
  entries := fun _ => []
  text := fun _ => ""

/-- Engine with one registered folder named api, as left by a successful
first registration. -/
def engineWithApi : Engine := ⟨none, [.mk (some "") "api" [] []]⟩

/-- Source tree for the traversal interleaving example: folder a is empty,
its sub folder a/b holds f.ts, and folder c holds g.ts. -/
def fs8 : FS where
  stat := fun p => if p == "a" || p == "a/b" || p == "c" then some .dir else none
  entries := fun p =>
    if p == "a/b" then ["f.ts"] else if p == "c" then ["g.ts"] else []
  text := fun _ => ""

/-- Registered forest for the traversal interleaving example: top level a
with sub folder b, then top level c, with non-empty exclusion lists so that
the filter of the source keeps the files. -/
def forest8 : List Folder :=
  [.mk (some "") "a" ["zz.ts"] [.mk (some "a") "b" ["zz.ts"] []],
   .mk (some "") "c" ["zz.ts"] []]

/-! ## Helper lemmas -/

/-- Strings of nonzero length are exactly the non-empty ones. -/
theorem str_len_ne_zero {p : String} (h : p ≠ "") : p.length ≠ 0 := by
  cases p with
  | mk data =>
    cases data with
    | nil => exact absurd rfl h
    | cons c cs => simp [String.length]

/-- A string extended on both sides of a slash is never empty. -/
theorem str_append_slash_ne {a b : String} : a ++ "/" ++ b ≠ "" := by
  intro h
  have hl := congrArg String.length h
  rw [String.length_append, String.length_append] at hl
  have h1 : ("/" : String).length = 1 := rfl
  have h0 : ("" : String).length = 0 := rfl
  rw [h1, h0] at hl
  omega

/-- addParentPathAll is the map of addParentPath. -/
theorem addParentPathAll_eq_map (p : String) (l : List Folder) :
    addParentPathAll p l = l.map (addParentPath p) := by
  induction l with
  | nil => rfl
  | cons f r ih => simp [addParentPathAll, ih]

/-- The name of a stamped folder is the original name. -/
theorem name_addParentPath (p : String) (f : Folder) :
    (addParentPath p f).name = f.name := by
  cases f with
  | mk q n ex subs => rfl

/-- namesOnPath always starts with the name of its root node. -/
theorem namesOnPath_head (f : Folder) (idxs : List Nat) :
    ∃ t, namesOnPath f idxs = f.name :: t := by
  cases idxs with
  | nil => exact ⟨[], rfl⟩
  | cons i r =>
    cases f with
    | mk p n ex subs =>
      simp only [namesOnPath, Folder.folders, Folder.name]
      cases hs : subs[i]? with
      | none => exact ⟨[], rfl⟩
      | some c => exact ⟨namesOnPath c r, rfl⟩

mutual

/-- Stamping a second time with the same path changes nothing: auxiliary
form on a single folder. -/
theorem addPP_idem_aux : (p : String) → (f : Folder) →
    addParentPath p (addParentPath p f) = addParentPath p f
  | p, .mk q n ex subs => by
    simp only [addParentPath]
    rw [addPPAll_idem_aux (p ++ "/" ++ n) subs]

/-- Stamping a second time with the same path changes nothing: auxiliary
form on a list of folders. -/
theorem addPPAll_idem_aux : (p : String) → (l : List Folder) →
    addParentPathAll p (addParentPathAll p l) = addParentPathAll p l
  | _, [] => rfl
  | p, f :: r => by
    simp only [addParentPathAll]
    rw [addPP_idem_aux p f, addPPAll_idem_aux p r]

end

/-- Effective path of any descendant of a folder stamped with a non-empty
parent path: the stamp followed by the slash-join of the visited names. -/
theorem stamped_descend_basePath : (idxs : List Nat) → (p : String) → (f : Folder) →
    (d : Folder) → p ≠ "" → descend (addParentPath p f) idxs = some d →
    basePath d = p ++ "/" ++ joinPath (namesOnPath (addParentPath p f) idxs)
  | [], p, .mk q n ex subs, d, hp, hd => by
    simp only [descend, Option.some.injEq] at hd
    subst hd
    have hlen : (p.length != 0) = true := bne_iff_ne.mpr (str_len_ne_zero hp)
    simp [addParentPath, namesOnPath, joinPath, basePath, Folder.name, hlen]
  | i :: r, p, .mk q n ex subs, d, hp, hd => by
    simp only [addParentPath, descend, Folder.folders, addParentPathAll_eq_map,
      List.getElem?_map] at hd
    cases hsub : subs[i]? with
    | none => rw [hsub] at hd; exact absurd hd (by simp)
    | some c =>
      rw [hsub] at hd
      simp only [Option.map_some'] at hd
      have ih := stamped_descend_basePath r (p ++ "/" ++ n) c d str_append_slash_ne hd
      simp only [addParentPath, namesOnPath, Folder.folders, Folder.name,
        addParentPathAll_eq_map, List.getElem?_map, hsub, Option.map_some']
      obtain ⟨t, ht⟩ := namesOnPath_head (addParentPath (p ++ "/" ++ n) c) r
      rw [ht] at ih ⊢
      rw [ih]
      simp [joinPath, String.append_assoc]

/-! ## Claim theorems -/

/-- C1. The claim states that the filter keeps exactly the entries with a
recognized suffix whose name is not in the excluded set, in particular that
a suffix-matching file is always kept when the exclusion set is empty.
The code instead keeps an entry only when the exclusion list has some
element different from it: with an empty exclusion list every file is
dropped (index.ts below, so the whole api folder is mirrored empty), and
with two excluded names every excluded file is kept (a.ts below is kept
although it is listed). This theorem evaluates the filter of the source,
and the full traversal of a folder without exclusions, at those inputs. -/
theorem keepFile_contradicts_exclusion_blocklist :
    keepFile [] "index.ts" = false ∧
    keepFile ["a.ts", "b.ts"] "a.ts" = true ∧
    transformFolder soloFS (fun s => s) "CWD" "dist" (.mk (some "") "api" [] []) = [] :=
  ⟨by decide, by decide, rfl⟩

/-- C2. The claim states that the output file name replaces the trailing
dialect suffix, leaving the rest of the name unchanged even when it
contains the substring ts earlier. The code calls the JavaScript replace
with plain strings, which rewrites only the first occurrence of ts: the
kept file tests.ts is written as tesjs.ts, still carrying the source
suffix, instead of tests.js. -/
theorem output_name_replaces_first_ts_occurrence :
    jsReplace "tests.ts" "ts" "js" = "tesjs.ts" ∧
    transformFolder testsFS (fun s => s) "CWD" "dist" (.mk (some "") "pkg" ["zz.ts"] []) =
      [("CWD/dist/pkg/tesjs.ts", "CODE")] ∧
    ("tesjs.ts" : String) ≠ "tests.js" :=
  ⟨by decide, rfl, by decide⟩

/-- C3 counterexample. The claim states that a kept file ending in .js is
mirrored verbatim, the transformer never being applied. In the source every
kept file goes through transformFile, so with a transpiler that rewrites
every text to CHANGED the file lib/util.js, whose source text is ORIGINAL,
is written with content CHANGED: the written text differs from the source
text. -/
theorem js_file_not_mirrored_verbatim :
    transformFolder libFS (fun _ => "CHANGED") "CWD" "dist" (.mk (some "") "lib" ["x.ts"] []) =
      [("CWD/dist/lib/util.js", "CHANGED")] ∧
    libFS.text "lib/util.js" = "ORIGINAL" ∧
    ("CHANGED" : String) ≠ "ORIGINAL" :=
  ⟨rfl, rfl, by decide⟩

/-- C3 amended. Every kept file, the ones ending in .js included, is passed
through the transpiler: the text written at the mirrored path is the
transpiler output on the source text (equal to the source only when the
transpiler fixes it), and the name still undergoes the first-occurrence
ts to js replacement. -/
theorem kept_js_file_written_transformed (fs : FS) (convert : String → String)
    (cwd outdir : String) (p : Option String) (n : String) (ex : List String)
    (subs : List Folder) (fl : String)
    (hmem : fl ∈ (fs.entries (basePath (.mk p n ex subs))).filter (fun f => keepFile ex f))
    (_hjs : endsWithStr fl ".js" = true) :
    (cwd ++ "/" ++ outdir ++ "/" ++ basePath (.mk p n ex subs) ++ "/" ++ jsReplace fl "ts" "js",
      convert (fs.text (basePath (.mk p n ex subs) ++ "/" ++ fl)))
      ∈ transformFolder fs convert cwd outdir (.mk p n ex subs) := by
  simp only [transformFolder]
  exact List.mem_append_left _ (List.mem_map_of_mem _ hmem)

/-- C3 amended, instantiated: the kept file util.js of the lib folder is
written with the transpiler applied to its text. -/
theorem kept_js_file_written_transformed_witness :
    ("CWD" ++ "/" ++ "dist" ++ "/" ++ basePath (.mk (some "") "lib" ["x.ts"] []) ++ "/" ++
        jsReplace "util.js" "ts" "js",
      (fun _ => "CHANGED") (libFS.text (basePath (.mk (some "") "lib" ["x.ts"] []) ++ "/" ++ "util.js")))
      ∈ transformFolder libFS (fun _ => "CHANGED") "CWD" "dist" (.mk (some "") "lib" ["x.ts"] []) :=
  kept_js_file_written_transformed libFS (fun _ => "CHANGED") "CWD" "dist" (some "") "lib"
    ["x.ts"] [] "util.js" (by decide) (by decide)

/-- C4. End to end example of the spec: with the api folder holding
index.ts and util.ts, registering api with util.ts excluded and the output
root set to dist, the traversal writes exactly one file, dist/api/index.js
under the current working directory, containing the converted text of
index.ts; in particular no trace of util.js is written anywhere. -/
theorem end_to_end_api_example (convert : String → String) (cwd tIndex tUtil : String) :
    (addFolder (apiFS tIndex tUtil) (setOutdir emptyEngine "dist") "api" ["util.ts"] []).2 = none ∧
    transform (apiFS tIndex tUtil) convert cwd
      (addFolder (apiFS tIndex tUtil) (setOutdir emptyEngine "dist") "api" ["util.ts"] []).1 =
      [(cwd ++ "/dist/api/index.js", convert tIndex)] := by
  refine ⟨rfl, ?_⟩
  have h : cwd ++ "/" ++ "dist" ++ "/" ++ "api" ++ "/" ++ "index.js" = cwd ++ "/dist/api/index.js" := by
    simp only [String.append_assoc]
    congr 1
  rw [← h]
  rfl

/-- C5. Registering a name already present in the top level forest is a
silent no-op: validateFolder signals the duplicate by returning false
before touching the filesystem, addFolder returns without appending and
without an error, and the forest is exactly what it was. -/
theorem addFolder_duplicate_is_noop (fs : FS) (e : Engine) (n : String) (ex : List String)
    (subs : List Folder) (h : ∃ x ∈ e.folders, x.name = n) :
    addFolder fs e n ex subs = (e, none) := by
  obtain ⟨x, hx, hname⟩ := h
  have hany : e.folders.any (fun x => x.name == n) = true :=
    List.any_eq_true.mpr ⟨x, hx, by simp [hname]⟩
  simp [addFolder, validateFolder, hany]

/-- C5 witness: re-registering api on an engine that already holds a folder
named api leaves the engine unchanged and raises nothing. -/
theorem addFolder_duplicate_is_noop_witness :
    addFolder ghostFS engineWithApi "api" ["x.ts"] [] = (engineWithApi, none) :=
  addFolder_duplicate_is_noop ghostFS engineWithApi "api" ["x.ts"] []
    ⟨.mk (some "") "api" [] [], by simp [engineWithApi], rfl⟩

/-- C6. Registration is atomic on validation failure: whenever addFolder
ends with a thrown message (in particular the missing-folder and
missing-file errors of checkFile), the engine component of the result is
the engine the call started from, so the failing node was not appended and
every previously registered folder is still registered; the error is a
value of the same synchronous call, not a later effect. -/
theorem addFolder_error_leaves_engine_unchanged (fs : FS) (e : Engine) (n : String)
    (ex : List String) (subs : List Folder) (m : String)
    (h : (addFolder fs e n ex subs).2 = some m) :
    (addFolder fs e n ex subs).1 = e := by
  unfold addFolder at h ⊢
  cases hv : validateFolder fs e.folders (.mk (some "") n ex (addParentPathAll n subs)) with
  | error msg => rfl
  | ok b =>
    rw [hv] at h
    cases b with
    | false => rfl
    | true => simp at h

/-- C6 witness: registering api against a filesystem where nothing exists
throws the missing-folder error and leaves the empty engine empty. -/
theorem addFolder_error_leaves_engine_unchanged_witness :
    (addFolder ghostFS emptyEngine "api" [] []).1 = emptyEngine :=
  addFolder_error_leaves_engine_unchanged ghostFS emptyEngine "api" [] []
    "Cannot find folder api" rfl

/-- C7. Path composition: for the node that addFolder assembles (empty
parent path at the top, sub folders stamped with the top name), the
effective path of every descendant reached through child positions is the
slash-join of the names of its ancestors followed by its own name, the top
name included; for a grandchild c below b below a this is a/b/c. -/
theorem descendant_effective_path (n : String) (ex : List String) (subs : List Folder)
    (idxs : List Nat) (d : Folder) (hn : n ≠ "")
    (hd : descend (.mk (some "") n ex (addParentPathAll n subs)) idxs = some d) :
    basePath d = joinPath (namesOnPath (.mk (some "") n ex (addParentPathAll n subs)) idxs) := by
  cases idxs with
  | nil =>
    simp only [descend, Option.some.injEq] at hd
    subst hd
    simp [basePath, namesOnPath, joinPath, Folder.name]
  | cons i r =>
    simp only [descend, Folder.folders, addParentPathAll_eq_map, List.getElem?_map] at hd
    cases hsub : subs[i]? with
    | none => rw [hsub] at hd; exact absurd hd (by simp)
    | some c =>
      rw [hsub] at hd
      simp only [Option.map_some'] at hd
      have ih := stamped_descend_basePath r n c d hn hd
      simp only [namesOnPath, Folder.folders, Folder.name, addParentPathAll_eq_map,
        List.getElem?_map, hsub, Option.map_some']
      rw [ih]
      obtain ⟨t, ht⟩ := namesOnPath_head (addParentPath n c) r
      rw [ht]
      simp [joinPath, String.append_assoc]

/-- C7 witness: inside the node registered as a with child b and grandchild
c, the descendant at positions 0, 0 exists and its effective path is
exactly a/b/c, the slash-join of the visited names. -/
theorem descendant_effective_path_witness :
    descend (.mk (some "") "a" [] (addParentPathAll "a" [.mk none "b" [] [.mk none "c" [] []]]))
        [0, 0] = some (.mk (some "a/b") "c" [] []) ∧
    basePath (Folder.mk (some "a/b") "c" [] []) = "a/b/c" :=
  ⟨rfl,
    (descendant_effective_path "a" [] [.mk none "b" [] [.mk none "c" [] []]] [0, 0]
      (.mk (some "a/b") "c" [] []) (by decide) rfl).trans rfl⟩

/-- C8. The claim states that the traversal is strictly sequential: every
top level subtree finishes before the next top level folder starts, with no
concurrent fan-out. The source awaits each file write and each top level
transformFolder call, but launches the recursive sub folder calls with
forEach, never awaiting the promises they return, so a parent resolves
while its children are still pending. In the process model this makes the
following completion order of the pending writes admissible for the forest
with top level a (whose child a/b holds f.ts) followed by top level c
(holding g.ts): the write of c/g.js happens first and the write under the
subtree of a happens after it, while a strictly sequential traversal could
only produce the depth-first trace with a/b/f.js first. -/
theorem later_sibling_write_can_precede_child_subtree :
    runPool [0, 0, 1] [transformTop fs8 "CWD" "dist" forest8] =
      ["CWD/dist/c/g.js", "CWD/dist/a/b/f.js"] := by
  decide

/-- C9. Stamping is idempotent: applying addParentPath a second time with
the same parent path returns the very same node, descendants included. The
operation is a pure function of the model (it performs no I/O in the
source: only field rewrites). -/
theorem addParentPath_idempotent (p : String) (f : Folder) :
    addParentPath p (addParentPath p f) = addParentPath p f :=
  addPP_idem_aux p f

/-- C10. A nested child descriptor carrying the name of an already
registered top level folder short-circuits validation: the recursive
validateFolder call returns false by the duplicate check alone, for every
filesystem (nothing about the child path web/api or its excluded files is
required to exist), the discarded boolean lets the parent validation
succeed, and the parent is appended to the forest. -/
theorem duplicate_named_child_skips_validation (fs : FS) (e : Engine) (ex : List String)
    (subs : List Folder)
    (hdup : e.folders.any (fun x => x.name == "api") = true)
    (hweb : e.folders.any (fun x => x.name == "web") = false)
    (hstat : fs.stat "web" = some .dir) :
    validateFolder fs e.folders (addParentPath "web" (.mk none "api" ex subs)) = .ok false ∧
    addFolder fs e "web" [] [.mk none "api" ex subs] =
      ({ e with folders :=
          e.folders ++ [.mk (some "") "web" [] (addParentPathAll "web" [.mk none "api" ex subs])] },
        none) := by
  constructor
  · simp [addParentPath, validateFolder, hdup]
  · simp [addFolder, validateFolder, validateChildren, checkExcludes, checkFile, basePath,
      addParentPathAll, addParentPath, hstat, hweb, hdup]

/-- C10 witness: on an engine already holding api, registering web with a
nested child named api whose excluded file ghost.ts exists nowhere (the
filesystem holds only the directory web) still succeeds and appends web. -/
theorem duplicate_named_child_skips_validation_witness :
    validateFolder webFS engineWithApi.folders
        (addParentPath "web" (.mk none "api" ["ghost.ts"] [])) = .ok false ∧
    addFolder webFS engineWithApi "web" [] [.mk none "api" ["ghost.ts"] []] =
      ({ engineWithApi with folders :=
          engineWithApi.folders ++
            [.mk (some "") "web" [] (addParentPathAll "web" [.mk none "api" ["ghost.ts"] []])] },
        none) :=
  duplicate_named_child_skips_validation webFS engineWithApi ["ghost.ts"] []
    (by decide) (by decide) rfl

end BTrans
